import Mathlib

/-!
Shallow embedding of `webApps/bot/mics.py`: the aiogram `PostgreSQLStorage`
state store (key builder, schema guarantee, state/data accessors), the
connection-handle lifecycle, and the `registr` registration glue.

The database visible to one store instance is modelled as an explicit value:
the `information_schema` column catalog of the `memory_cache` table and the
table's rows.  Each Python coroutine that touches the database becomes a pure
function from the database value to an `Except`-wrapped result (raising maps
to `Except.error`).  `get_connection` only touches the connection handle and
never the table contents, so it is modelled separately on the handle.
-/

/- ### Python `str(int)` (used by the f-string in `PostgreSQLKeyBuilder.build`) -/

/-- Fuelled decimal-digit extraction (`n < fuel` always holds at the call
site, so the fuel never runs out). -/
def natDigitsF : Nat → Nat → List Char
  | 0, _ => []
  | fuel + 1, n =>
    if n < 10 then [Nat.digitChar n]
    else natDigitsF fuel (n / 10) ++ [Nat.digitChar (n % 10)]

/-- Decimal digit characters of a natural number, most significant first,
as produced by Python's `str`: no leading zeros, `[0]` for zero. -/
def natDigits (n : Nat) : List Char :=
  natDigitsF (n + 1) n

/-- Characters of Python `str` on an `int`: minus sign followed by the decimal
digits of the absolute value for negatives, plain decimal digits otherwise. -/
def pyChars (i : Int) : List Char :=
  if i < 0 then '-' :: natDigits i.natAbs else natDigits i.toNat

/-- Python `str` on an `int`. -/
def pyStr (i : Int) : String :=
  String.mk (pyChars i)

/- ### JSON values and the default `json.dumps` / `json.loads` configuration -/

/-- JSON documents, the values handled by Python's `json` module
(`float` omitted; the storage claims only involve exact values). -/
inductive JsonVal where
  | null
  | bool (b : Bool)
  | num (n : Int)
  | str (s : String)
  | arr (elems : List JsonVal)
  | obj (members : List (String × JsonVal))

mutual

/-- Modelled from the spec: Python's standard-library `json.dumps` with default
separators (", " between items, ": " after keys); the `json` module itself is
not part of this repository.  String escaping is omitted, so the model is
faithful for strings without quotes, backslashes or control characters. -/
def pyDumps : JsonVal → String
  | .null => "null"
  | .bool true => "true"
  | .bool false => "false"
  | .num n => pyStr n
  | .str s => "\"" ++ s ++ "\""
  | .arr elems => "[" ++ ", ".intercalate (pyDumpsList elems) ++ "]"
  | .obj members => "\x7b" ++ ", ".intercalate (pyDumpsMembers members) ++ "\x7d"
termination_by structural v => v

def pyDumpsList : List JsonVal → List String
  | [] => []
  | v :: vs => pyDumps v :: pyDumpsList vs
termination_by structural l => l

def pyDumpsMembers : List (String × JsonVal) → List String
  | [] => []
  | m :: ms => ("\"" ++ m.1 ++ "\": " ++ pyDumps m.2) :: pyDumpsMembers ms
termination_by structural l => l

end

def lbrace : Char := Char.ofNat 123

def rbrace : Char := Char.ofNat 125

/-- JSON insignificant whitespace. -/
def skipWs : List Char → List Char
  | [] => []
  | c :: cs => if c = ' ' ∨ c = '\n' ∨ c = '\t' ∨ c = '\r' then skipWs cs else c :: cs

/-- Characters of a JSON string literal up to the closing quote. -/
def parseStrChars : List Char → Option (List Char × List Char)
  | [] => none
  | c :: cs =>
    if c = '"' then some ([], cs)
    else (parseStrChars cs).map fun p => (c :: p.1, p.2)

/-- Longest digit run at the front of the input. -/
def spanDigits : List Char → List Char × List Char
  | [] => ([], [])
  | c :: cs =>
    if c.isDigit then
      let p := spanDigits cs
      (c :: p.1, p.2)
    else ([], c :: cs)

/-- Numeric value of a list of decimal digit characters. -/
def digitsVal (l : List Char) : Nat :=
  l.foldl (fun a c => a * 10 + (c.toNat - 48)) 0

mutual

def parseVal : Nat → List Char → Option (JsonVal × List Char)
  | 0, _ => none
  | fuel + 1, cs =>
    match skipWs cs with
    | [] => none
    | c :: rest =>
      if c = '"' then
        (parseStrChars rest).map fun p => (.str (String.mk p.1), p.2)
      else if c = lbrace then
        match skipWs rest with
        | [] => none
        | d :: rest2 =>
          if d = rbrace then some (.obj [], rest2)
          else (parseMembers fuel (d :: rest2)).map fun p => (.obj p.1, p.2)
      else if c = '[' then
        match skipWs rest with
        | [] => none
        | d :: rest2 =>
          if d = ']' then some (.arr [], rest2)
          else (parseElems fuel (d :: rest2)).map fun p => (.arr p.1, p.2)
      else if c = 't' then
        match rest with
        | 'r' :: 'u' :: 'e' :: rest2 => some (.bool true, rest2)
        | _ => none
      else if c = 'f' then
        match rest with
        | 'a' :: 'l' :: 's' :: 'e' :: rest2 => some (.bool false, rest2)
        | _ => none
      else if c = 'n' then
        match rest with
        | 'u' :: 'l' :: 'l' :: rest2 => some (.null, rest2)
        | _ => none
      else if c = '-' then
        let p := spanDigits rest
        if p.1.isEmpty then none
        else some (.num (-(digitsVal p.1 : Int)), p.2)
      else if c.isDigit then
        let p := spanDigits (c :: rest)
        some (.num (digitsVal p.1 : Int), p.2)
      else none
termination_by structural fuel _ => fuel

def parseMembers : Nat → List Char → Option (List (String × JsonVal) × List Char)
  | 0, _ => none
  | fuel + 1, cs =>
    match skipWs cs with
    | [] => none
    | c :: rest =>
      if c = '"' then
        match parseStrChars rest with
        | none => none
        | some (key, rest1) =>
          match skipWs rest1 with
          | ':' :: rest2 =>
            match parseVal fuel rest2 with
            | none => none
            | some (v, rest3) =>
              match skipWs rest3 with
              | ',' :: rest4 =>
                (parseMembers fuel rest4).map fun p =>
                  ((String.mk key, v) :: p.1, p.2)
              | d :: rest4 =>
                if d = rbrace then some ([(String.mk key, v)], rest4) else none
              | [] => none
          | _ => none
      else none
termination_by structural fuel _ => fuel

def parseElems : Nat → List Char → Option (List JsonVal × List Char)
  | 0, _ => none
  | fuel + 1, cs =>
    match parseVal fuel cs with
    | none => none
    | some (v, rest) =>
      match skipWs rest with
      | ',' :: rest2 => (parseElems fuel rest2).map fun p => (v :: p.1, p.2)
      | ']' :: rest2 => some ([v], rest2)
      | _ => none
termination_by structural fuel _ => fuel

end

/-- Modelled from the spec: Python's standard-library `json.loads` (default
decoder) on the JSON fragment this storage produces; a decode error (which
raises in Python) is collapsed to `JsonVal.null`, a value no theorem relies
on. -/
def pyLoads (s : String) : JsonVal :=
  match parseVal (s.length + 1) s.data with
  | some (v, rest) => if (skipWs rest).isEmpty then v else .null
  | none => .null

/-- The `json_loads` / `json_dumps` configuration of a store instance
(constructor parameters of `PostgreSQLStorage.__init__`), together with the
value denoted by the Python literal `\x7b\x7d` that `get_data` returns when the
stored cell is falsy. -/
structure JsonCodec (α : Type) where
  dumps : α → String
  loads : String → α
  emptyObj : α

/-- The default configuration: `json.dumps` / `json.loads`. -/
def pyJsonCodec : JsonCodec JsonVal :=
  { dumps := pyDumps, loads := pyLoads, emptyObj := .obj [] }

/- ### Key builder -/

/-- The fields of `aiogram.fsm.storage.base.StorageKey` that
`PostgreSQLKeyBuilder.build` reads. -/
structure StorageKey where
  chat_id : Int
  user_id : Int
deriving DecidableEq

/-- `PostgreSQLKeyBuilder.build`: the f-string `/chat_id/user_id/`. -/
def build (key : StorageKey) : String :=
  "/" ++ pyStr key.chat_id ++ "/" ++ pyStr key.user_id ++ "/"

/- ### The database model -/

/-- One `memory_cache` row (the `key` column is the association-list key).
`none` is SQL NULL; `asyncpg` surfaces NULL as Python `None`. -/
structure Row where
  state : Option String
  data : Option String
deriving DecidableEq

/-- The database as one store instance sees it: `columns` is the
`information_schema.columns` catalog answer for table `memory_cache`
(column name and lower-case `data_type`, empty when the table is absent),
`rows` the table contents keyed by the `key` column. -/
structure DB where
  columns : List (String × String)
  rows : List (String × Row)
deriving DecidableEq

/-- Python truthiness of an `asyncpg.fetchval` result that is NULL or a
string: `None` and `''` are falsy. -/
def pyTruthy : Option String → Bool
  | none => false
  | some s => !s.isEmpty

inductive StructureError where
  | mk
deriving DecidableEq

/-- `memory_cache_model` from `ensure_exists` (Python dict in insertion
order). -/
def memory_cache_model : List (String × String) :=
  [("key", "TEXT"), ("state", "TEXT"), ("data", "JSON")]

/-- Catalog contents right after
`CREATE TABLE memory_cache (key TEXT PRIMARY KEY, state TEXT, data JSON);`
(PostgreSQL reports `data_type` in lower case). -/
def created_columns : List (String × String) :=
  [("key", "text"), ("state", "text"), ("data", "json")]

/-- Python `str.upper()` on the ASCII type names the catalog returns. -/
def pyUpper (s : String) : String :=
  String.mk (s.data.map Char.toUpper)

/-- Lookup in the Python dict comprehension
`\x7bfield['column_name']: field['data_type'].upper() for field in memory_cache\x7d`:
a later duplicate overrides an earlier one. -/
def pyDict (l : List (String × String)) (k : String) : Option String :=
  (l.reverse.find? fun p => p.1 == k).map (·.2)

/-- The schema comparison of `ensure_exists`: every field of
`memory_cache_model` must appear in the catalog with the expected type,
case-insensitively on the type name (`.upper()`). -/
def schemaOk (cols : List (String × String)) : Bool :=
  memory_cache_model.all fun m =>
    pyDict (cols.map fun c => (c.1, pyUpper c.2)) m.1 == some m.2

/-- The default row `ensure_exists` inserts:
`INSERT INTO memory_cache (key, state, data) VALUES ($1, '', '\x7b\x7d');`. -/
def defaultRow : Row :=
  { state := some "", data := some "\x7b\x7d" }

/-- Row-existence check plus default insert (second half of
`ensure_exists`). -/
def ensureRow (db : DB) (key : String) : DB :=
  if db.rows.any fun r => r.1 == key then db
  else { db with rows := db.rows ++ [(key, defaultRow)] }

/-- `PostgreSQLStorage.ensure_exists`: create the table when the catalog query
returns no columns, otherwise compare the discovered schema against
`memory_cache_model` and raise `StructureError` on mismatch; then insert the
default row for `key` when absent. -/
def ensure_exists (db : DB) (key : String) : Except StructureError DB :=
  if db.columns.isEmpty then
    .ok (ensureRow { db with columns := created_columns } key)
  else if schemaOk db.columns then
    .ok (ensureRow db key)
  else
    .error StructureError.mk

/-- The row the single-row query `SELECT ... FROM memory_cache WHERE key = $1`
reads (the primary key makes the match unique). -/
def rowFor (db : DB) (key : String) : Option Row :=
  (db.rows.find? fun r => r.1 == key).map (·.2)

/-- The per-row effect of an `ON CONFLICT (key) DO UPDATE` clause: apply `f`
to the row whose key matches, leave every other row alone. -/
def updateRow (key : String) (f : Row → Row) (r : String × Row) :
    String × Row :=
  if r.1 == key then (r.1, f r.2) else r

/-- `INSERT ... VALUES ($1, $2, '\x7b\x7d') ON CONFLICT (key) DO UPDATE SET
state = EXCLUDED.state;` from `set_state`. -/
def upsertState (db : DB) (key : String) (v : Option String) : DB :=
  if db.rows.any fun r => r.1 == key then
    { db with rows := db.rows.map (updateRow key fun row => Row.mk v row.data) }
  else
    { db with rows := db.rows ++ [(key, Row.mk v (some "\x7b\x7d"))] }

/-- `INSERT ... VALUES ($1, '', $2::jsonb) ON CONFLICT (key) DO UPDATE SET
data = EXCLUDED.data;` from `set_data` (the stored cell is the serialized
text). -/
def upsertData (db : DB) (key : String) (s : String) : DB :=
  if db.rows.any fun r => r.1 == key then
    { db with rows :=
        db.rows.map (updateRow key fun row => Row.mk row.state (some s)) }
  else
    { db with rows := db.rows ++ [(key, Row.mk (some "") (some s))] }

/-- The `state` argument of `set_state`: aiogram's
`StateType = Optional[Union[str, State]]`; a `State` object carries an
optional full state name in its `.state` attribute. -/
inductive StateArg where
  | noneArg
  | strArg (s : String)
  | stateObj (full_state_name : Option String)

/-- `state.state if isinstance(state, State) else state`. -/
def stateValue : StateArg → Option String
  | .noneArg => none
  | .strArg s => some s
  | .stateObj s => s

/-- `PostgreSQLStorage.set_state` after `get_connection` (which does not touch
the table): build the string key, ensure schema and row, upsert the state. -/
def set_state (db : DB) (key : StorageKey) (state : StateArg) :
    Except StructureError DB := do
  let db ← ensure_exists db (build key)
  pure (upsertState db (build key) (stateValue state))

/-- `PostgreSQLStorage.get_state`: ensure schema and row, fetch the `state`
cell, return it when truthy and `None` otherwise. -/
def get_state (db : DB) (key : StorageKey) :
    Except StructureError (Option String × DB) := do
  let db ← ensure_exists db (build key)
  let result : Option String :=
    match rowFor db (build key) with
    | some r => r.state
    | none => none
  pure ((if pyTruthy result then result else none), db)

/-- `PostgreSQLStorage.set_data`: ensure schema and row, upsert
`json_dumps(data)` into the `data` column. -/
def set_data {α : Type} (c : JsonCodec α) (db : DB) (key : StorageKey) (d : α) :
    Except StructureError DB := do
  let db ← ensure_exists db (build key)
  pure (upsertData db (build key) (c.dumps d))

/-- `PostgreSQLStorage.get_data`: ensure schema and row, fetch the `data`
cell, return `json_loads(result)` when truthy and the empty dict literal
otherwise. -/
def get_data {α : Type} (c : JsonCodec α) (db : DB) (key : StorageKey) :
    Except StructureError (α × DB) := do
  let db ← ensure_exists db (build key)
  let result : Option String :=
    match rowFor db (build key) with
    | some r => r.data
    | none => none
  if pyTruthy result then
    pure (c.loads (result.getD ""), db)
  else
    pure (c.emptyObj, db)

/- ### Connection handle (`__init__`, `get_connection`, `close`) -/

/-- `None.close()` on the never-connected handle raises `AttributeError`. -/
inductive PyAttributeError where
  | mk
deriving DecidableEq

/-- The connection-handle state of a `PostgreSQLStorage` instance:
`postgresql_connection` is `None` until a connection is established. -/
structure PGStorage where
  postgresql_connection : Option Unit
deriving DecidableEq

/-- `PostgreSQLStorage.__init__` sets `self.postgresql_connection = None`. -/
def initStorage : PGStorage :=
  { postgresql_connection := none }

/-- `PostgreSQLStorage.close`: `await self.postgresql_connection.close()` with
no `None` guard, so a `None` handle raises `AttributeError`. -/
def closeStorage (s : PGStorage) : Except PyAttributeError Unit :=
  match s.postgresql_connection with
  | none => .error .mk
  | some _ => .ok ()

/-- `PostgreSQLStorage.get_connection`: probe an existing handle with
`SELECT 1` (`probe_ok` is whether the probe raised no driver error), discard
and reconnect on failure, connect when no handle exists.  `asyncpg.connect`
succeeding is the external collaborator's behaviour. -/
def get_connection (s : PGStorage) (probe_ok : Bool) : PGStorage :=
  match s.postgresql_connection with
  | some _ =>
    if probe_ok then s else { postgresql_connection := some () }
  | none => { postgresql_connection := some () }

/- ### Registration glue (`registr`) -/

/-- A Python object reference: `is` compares identity, not value, so the
fields a `registr` call inspects are modelled as abstract object references
(`first_name`, `last_name`, `username` of the incoming Telegram user and the
stored `User` record). -/
abbrev PyRef := Nat

/-- The fields of `event_from_user` that `registr` reads. -/
structure EventFromUser where
  id : Int
  first_name : PyRef
  last_name : PyRef
  username : PyRef
deriving DecidableEq

/-- The fields of the stored `User` record that `registr` compares. -/
structure UserRecord where
  first_name : PyRef
  last_name : PyRef
  username : PyRef
deriving DecidableEq

/-- Calls `registr` issues to the `user_repository` collaborator. -/
inductive RepoCall where
  | update_first_name (id : Int) (v : PyRef)
  | update_last_name (id : Int) (v : PyRef)
  | update_username (id : Int) (v : PyRef)
  | entry (id : Int) (first_name last_name username : PyRef)
deriving DecidableEq

inductive RegistrationError where
  | mk
deriving DecidableEq

/-- `registr(event_from_user, user, container)`: with an existing record,
issue one update per field whose incoming value is not identical (`is`) to the
stored one; with no record, call `entry` and raise `RegistrationError` when
its result is falsy.  `entry_ok` is the truthiness of the collaborator's
`entry()` result; the returned list is the sequence of collaborator calls. -/
def registr (event : EventFromUser) (user : Option UserRecord)
    (entry_ok : Bool) : Except RegistrationError (List RepoCall) :=
  match user with
  | some u =>
    .ok
      ((if u.first_name ≠ event.first_name then
          [RepoCall.update_first_name event.id event.first_name] else []) ++
       (if u.last_name ≠ event.last_name then
          [RepoCall.update_last_name event.id event.last_name] else []) ++
       (if u.username ≠ event.username then
          [RepoCall.update_username event.id event.username] else []))
  | none =>
    if entry_ok then
      .ok [RepoCall.entry event.id event.first_name event.last_name
        event.username]
    else
      .error RegistrationError.mk

/-- A database a store instance can operate on: the `memory_cache` table is
either absent or has the expected structure (table creation in the first case
and the schema comparison in the second both happen inside `ensure_exists`). -/
def compatible (db : DB) : Prop :=
  db.columns = [] ∨ schemaOk db.columns = true

/- ### Lemmas: decimal digits and the key builder -/

theorem digitChar_isDigit {k : Nat} (h : k < 10) :
    (Nat.digitChar k).isDigit = true := by
  interval_cases k <;> rfl

theorem digitChar_toNat {k : Nat} (h : k < 10) :
    (Nat.digitChar k).toNat = 48 + k := by
  interval_cases k <;> rfl

theorem natDigitsF_ne_nil (fuel : Nat) :
    ∀ n, n < fuel → natDigitsF fuel n ≠ [] := by
  induction fuel with
  | zero => intro n h; omega
  | succ f ih =>
    intro n _
    rw [natDigitsF]
    split <;> simp

theorem natDigits_ne_nil (n : Nat) : natDigits n ≠ [] :=
  natDigitsF_ne_nil (n + 1) n (by omega)

theorem mem_natDigitsF_isDigit (fuel : Nat) :
    ∀ n, n < fuel → ∀ c ∈ natDigitsF fuel n, c.isDigit = true := by
  induction fuel with
  | zero => intro n h; omega
  | succ f ih =>
    intro n hn c hc
    rw [natDigitsF] at hc
    by_cases h10 : n < 10
    · rw [if_pos h10, List.mem_singleton] at hc
      exact hc ▸ digitChar_isDigit h10
    · rw [if_neg h10, List.mem_append, List.mem_singleton] at hc
      rcases hc with hc | rfl
      · exact ih (n / 10) (by omega) c hc
      · exact digitChar_isDigit (Nat.mod_lt _ (by omega))

theorem mem_natDigits_isDigit (n : Nat) :
    ∀ c ∈ natDigits n, c.isDigit = true :=
  mem_natDigitsF_isDigit (n + 1) n (by omega)

theorem digitsVal_append (l : List Char) (c : Char) :
    digitsVal (l ++ [c]) = digitsVal l * 10 + (c.toNat - 48) := by
  unfold digitsVal
  rw [List.foldl_append]
  rfl

theorem digitsVal_natDigitsF (fuel : Nat) :
    ∀ n, n < fuel → digitsVal (natDigitsF fuel n) = n := by
  induction fuel with
  | zero => intro n h; omega
  | succ f ih =>
    intro n hn
    rw [natDigitsF]
    by_cases h10 : n < 10
    · rw [if_pos h10]
      show 0 * 10 + ((Nat.digitChar n).toNat - 48) = n
      rw [digitChar_toNat h10]
      omega
    · rw [if_neg h10, digitsVal_append, ih (n / 10) (by omega),
        digitChar_toNat (Nat.mod_lt _ (by omega))]
      omega

theorem digitsVal_natDigits (n : Nat) : digitsVal (natDigits n) = n :=
  digitsVal_natDigitsF (n + 1) n (by omega)

theorem natDigits_inj {m n : Nat} (h : natDigits m = natDigits n) : m = n := by
  have hm := digitsVal_natDigits m
  rw [h, digitsVal_natDigits] at hm
  exact hm.symm

theorem slash_not_mem_natDigits (n : Nat) : '/' ∉ natDigits n := by
  intro h
  have := mem_natDigits_isDigit n _ h
  exact absurd this (by decide)

theorem dash_not_mem_natDigits (n : Nat) : '-' ∉ natDigits n := by
  intro h
  have := mem_natDigits_isDigit n _ h
  exact absurd this (by decide)

theorem pyChars_inj {i j : Int} (h : pyChars i = pyChars j) : i = j := by
  unfold pyChars at h
  split at h <;> split at h
  · rename_i hi hj
    have h' : natDigits i.natAbs = natDigits j.natAbs := by
      simpa using h
    have := natDigits_inj h'
    omega
  · rename_i hi hj
    exact absurd (h ▸ List.mem_cons_self '-' _) (dash_not_mem_natDigits _)
  · rename_i hi hj
    exact absurd (h.symm ▸ List.mem_cons_self '-' _) (dash_not_mem_natDigits _)
  · rename_i hi hj
    have := natDigits_inj h
    omega

theorem slash_not_mem_pyChars (i : Int) : '/' ∉ pyChars i := by
  unfold pyChars
  split
  · intro h
    rcases List.mem_cons.mp h with h | h
    · exact absurd h (by decide)
    · exact slash_not_mem_natDigits _ h
  · exact slash_not_mem_natDigits _

theorem sep_inj :
    ∀ l1 l2 m1 m2 : List Char, '/' ∉ l1 → '/' ∉ l2 →
      l1 ++ '/' :: m1 = l2 ++ '/' :: m2 → l1 = l2 ∧ m1 = m2 := by
  intro l1
  induction l1 with
  | nil =>
    intro l2 m1 m2 _ h2 h
    cases l2 with
    | nil =>
      simp only [List.nil_append, List.cons.injEq, true_and] at h ⊢
      exact h
    | cons b t =>
      simp only [List.nil_append, List.cons_append, List.cons.injEq] at h
      exact absurd (h.1 ▸ List.mem_cons_self b t) h2
  | cons a t ih =>
    intro l2 m1 m2 h1 h2 h
    cases l2 with
    | nil =>
      simp only [List.cons_append, List.nil_append, List.cons.injEq] at h
      exact absurd (h.1 ▸ List.mem_cons_self a t) h1
    | cons b t2 =>
      simp only [List.cons_append, List.cons.injEq] at h
      obtain ⟨rfl, ht⟩ := h
      have h1' : '/' ∉ t := fun hm => h1 (List.mem_cons_of_mem _ hm)
      have h2' : '/' ∉ t2 := fun hm => h2 (List.mem_cons_of_mem _ hm)
      obtain ⟨rfl, hm⟩ := ih t2 m1 m2 h1' h2' ht
      exact ⟨rfl, hm⟩

theorem build_data (k : StorageKey) :
    (build k).data =
      '/' :: (pyChars k.chat_id ++ '/' :: (pyChars k.user_id ++ ['/'])) := by
  show ((((("/" : String) ++ pyStr k.chat_id) ++ "/") ++ pyStr k.user_id) ++
      "/").data = _
  simp only [String.data_append, pyStr]
  simp [List.append_assoc]

theorem build_inj {k1 k2 : StorageKey} (h : build k1 = build k2) : k1 = k2 := by
  have hd := congrArg String.data h
  rw [build_data, build_data] at hd
  simp only [List.cons.injEq, true_and] at hd
  obtain ⟨hc, hu⟩ := sep_inj _ _ _ _ (slash_not_mem_pyChars k1.chat_id)
    (slash_not_mem_pyChars k2.chat_id) hd
  have hu' := List.append_cancel_right hu
  cases k1
  cases k2
  simp only [StorageKey.mk.injEq]
  exact ⟨pyChars_inj hc, pyChars_inj hu'⟩

/- ### Lemmas: the schema guarantee and row bookkeeping -/

theorem schemaOk_created : schemaOk created_columns = true := by decide

theorem schemaOk_nil : schemaOk [] = false := by decide

theorem schemaOk_isEmpty_false {cols : List (String × String)}
    (h : schemaOk cols = true) : cols.isEmpty = false := by
  cases cols with
  | nil => exact absurd h (by simp [schemaOk_nil])
  | cons a t => rfl

theorem find?_update (rows : List (String × Row)) (k : String) (f : Row → Row) :
    ((rows.map (updateRow k f)).find? fun r => r.1 == k) =
      (rows.find? fun r => r.1 == k).map fun r => (r.1, f r.2) := by
  induction rows with
  | nil => rfl
  | cons a t ih =>
    simp only [List.map_cons]
    by_cases h : (a.1 == k) = true
    · rw [show updateRow k f a = (a.1, f a.2) from if_pos h]
      rw [@List.find?_cons_of_pos _ (fun r => r.1 == k) (a.1, f a.2) _ h]
      rw [@List.find?_cons_of_pos _ (fun r => r.1 == k) a _ h]
      rfl
    · rw [show updateRow k f a = a from if_neg h]
      rw [@List.find?_cons_of_neg _ (fun r => r.1 == k) a _ h]
      rw [@List.find?_cons_of_neg _ (fun r => r.1 == k) a _ h]
      rw [ih]

theorem any_update (rows : List (String × Row)) (k : String) (f : Row → Row) :
    ((rows.map (updateRow k f)).any fun r => r.1 == k) =
      rows.any fun r => r.1 == k := by
  induction rows with
  | nil => rfl
  | cons a t ih =>
    simp only [List.map_cons, List.any_cons]
    by_cases h : (a.1 == k) = true
    · rw [show updateRow k f a = (a.1, f a.2) from if_pos h]
      show ((a.1 == k) || _) = ((a.1 == k) || _)
      rw [h, Bool.true_or, Bool.true_or]
    · have h' : (a.1 == k) = false := by simpa using h
      rw [show updateRow k f a = a from if_neg h]
      show ((a.1 == k) || _) = ((a.1 == k) || _)
      rw [h', Bool.false_or, Bool.false_or, ih]

theorem find?_append_default (rows : List (String × Row)) (k : String)
    (row : Row) (h : (rows.any fun r => r.1 == k) = false) :
    ((rows ++ [(k, row)]).find? fun r => r.1 == k) = some (k, row) := by
  rw [List.find?_append]
  have hn : (rows.find? fun r => r.1 == k) = none :=
    List.find?_eq_none.mpr (List.any_eq_false.mp h)
  rw [hn]
  simp [List.find?_cons_of_pos]

theorem any_append_default (rows : List (String × Row)) (k : String)
    (row : Row) : ((rows ++ [(k, row)]).any fun r => r.1 == k) = true := by
  simp [List.any_append]

theorem countP_key_eq_one (rows : List (String × Row)) (k : String)
    (hnd : (rows.map Prod.fst).Nodup)
    (h : (rows.any fun r => r.1 == k) = true) :
    (rows.countP fun r => r.1 == k) = 1 := by
  induction rows with
  | nil => simp at h
  | cons a t ih =>
    rw [List.map_cons, List.nodup_cons] at hnd
    rw [List.countP_cons]
    by_cases ha : (a.1 == k) = true
    · have hk : a.1 = k := by simpa using ha
      have ht : (t.countP fun r => r.1 == k) = 0 := by
        rw [List.countP_eq_zero]
        intro b hb hbk
        have : b.1 = k := by simpa using hbk
        exact hnd.1 (by
          rw [← hk] at this
          exact this ▸ List.mem_map.mpr ⟨b, hb, rfl⟩)
      simp [ha, ht]
    · have ha' : (a.1 == k) = false := by simpa using ha
      rw [List.any_cons, ha'] at h
      simp only [Bool.false_or] at h
      simp [ha', ih hnd.2 h]

theorem countP_key_zero (rows : List (String × Row)) (k : String)
    (h : (rows.any fun r => r.1 == k) = false) :
    (rows.countP fun r => r.1 == k) = 0 :=
  List.countP_eq_zero.mpr (List.any_eq_false.mp h)

theorem ensure_exists_compatible (db : DB) (k : String) (h : compatible db) :
    ensure_exists db k =
      .ok { columns := if db.columns.isEmpty then created_columns
                       else db.columns,
            rows := if db.rows.any fun r => r.1 == k then db.rows
                    else db.rows ++ [(k, defaultRow)] } := by
  rcases h with h | h
  · unfold ensure_exists ensureRow
    rw [h]
    simp only [List.isEmpty_nil, if_true]
    split <;> rfl
  · have hne := schemaOk_isEmpty_false h
    unfold ensure_exists ensureRow
    rw [hne]
    simp only [Bool.false_eq_true, if_false, h, if_true]
    split <;> rfl

theorem ensure_exists_stable (db : DB) (k : String)
    (h1 : schemaOk db.columns = true)
    (h2 : (db.rows.any fun r => r.1 == k) = true) :
    ensure_exists db k = .ok db := by
  unfold ensure_exists ensureRow
  rw [schemaOk_isEmpty_false h1]
  simp [h1, h2]

theorem schemaOk_after_ensure (db : DB) (h : compatible db) :
    schemaOk (if db.columns.isEmpty then created_columns else db.columns) =
      true := by
  rcases h with h | h
  · rw [h]
    exact schemaOk_created
  · rw [schemaOk_isEmpty_false h]
    exact h

theorem ok_bind {ε α β : Type} (a : α) (f : α → Except ε β) :
    (Except.ok a >>= f) = f a := rfl

theorem error_bind {ε α β : Type} (e : ε) (f : α → Except ε β) :
    ((Except.error e : Except ε α) >>= f) = .error e := rfl

/-- What one `ensure_exists` call does on a compatible database: it succeeds,
the resulting schema passes the check, the row for `k` exists, and the rows
are unchanged apart from a possible default insert for `k`. -/
theorem ensure_exists_spec (db : DB) (k : String) (h : compatible db) :
    ∃ db₁, ensure_exists db k = .ok db₁ ∧
      schemaOk db₁.columns = true ∧
      (db₁.rows.any fun r => r.1 == k) = true ∧
      db₁.rows = (if db.rows.any fun r => r.1 == k then db.rows
                  else db.rows ++ [(k, defaultRow)]) := by
  refine ⟨_, ensure_exists_compatible db k h, schemaOk_after_ensure db h,
    ?_, rfl⟩
  by_cases hA : (db.rows.any fun r => r.1 == k) = true
  · show ((if db.rows.any fun r => r.1 == k then db.rows
      else db.rows ++ [(k, defaultRow)]).any fun r => r.1 == k) = true
    rw [if_pos hA]
    exact hA
  · show ((if db.rows.any fun r => r.1 == k then db.rows
      else db.rows ++ [(k, defaultRow)]).any fun r => r.1 == k) = true
    rw [if_neg hA]
    exact any_append_default _ _ _

theorem pyDict_append (l1 l2 : List (String × String)) (name : String)
    (hx : ∀ p ∈ l2, p.1 ≠ name) :
    pyDict (l1 ++ l2) name = pyDict l1 name := by
  unfold pyDict
  rw [List.reverse_append, List.find?_append]
  have hn : (l2.reverse.find? fun p => p.1 == name) = none :=
    List.find?_eq_none.mpr (by
      intro x hxm hb
      exact hx x (List.mem_reverse.mp hxm) (by simpa using hb))
  rw [hn, Option.none_or]

theorem schemaOk_extras (extras : List (String × String))
    (hx : ∀ p ∈ extras, ∀ m ∈ memory_cache_model, p.1 ≠ m.1) :
    schemaOk (created_columns ++ extras) = true := by
  rw [schemaOk, List.all_eq_true]
  intro m hm
  rw [List.map_append, pyDict_append]
  · have hm' : m = ("key", "TEXT") ∨ m = ("state", "TEXT") ∨
        m = ("data", "JSON") := by simpa [memory_cache_model] using hm
    rcases hm' with rfl | rfl | rfl <;> decide
  · intro p hp
    obtain ⟨q, hq, rfl⟩ := List.mem_map.mp hp
    exact hx q hq m hm

/- ### Claim theorems -/

/-- C5: `PostgreSQLKeyBuilder.build` is the pure function sending a storage key
to the string `/chat_id/user_id/` (determinism is inherent in it being a
function of the key), and it is injective: distinct `(chat_id, user_id)` pairs
yield distinct strings. -/
theorem claim_key_builder_injective :
    (∀ k : StorageKey,
      build k = "/" ++ pyStr k.chat_id ++ "/" ++ pyStr k.user_id ++ "/") ∧
    ∀ k1 k2 : StorageKey, build k1 = build k2 → k1 = k2 :=
  ⟨fun _ => rfl, fun _ _ h => build_inj h⟩

theorem claim_key_builder_injective_witness :
    StorageKey.mk 5 42 = StorageKey.mk 5 42 :=
  claim_key_builder_injective.2 (StorageKey.mk 5 42) (StorageKey.mk 5 42) rfl

/-- C4: when a `memory_cache` table pre-exists (the catalog is non-empty) and
some expected column is missing or has a differing declared type (compared
case-insensitively via `.upper()`), every accessor raises `StructureError`. -/
theorem claim_schema_mismatch_raises {α : Type} (c : JsonCodec α) (db : DB)
    (k : StorageKey) (st : StateArg) (d : α)
    (hne : db.columns ≠ [])
    (hmm : ∃ m ∈ memory_cache_model,
      pyDict (db.columns.map fun col => (col.1, pyUpper col.2)) m.1 ≠
        some m.2) :
    set_state db k st = .error StructureError.mk ∧
    get_state db k = .error StructureError.mk ∧
    set_data c db k d = .error StructureError.mk ∧
    get_data c db k = .error StructureError.mk := by
  have hso : schemaOk db.columns = false := by
    rw [Bool.eq_false_iff]
    intro hall
    rcases hmm with ⟨m, hm, hne2⟩
    rw [schemaOk, List.all_eq_true] at hall
    exact hne2 (by simpa using hall m hm)
  have hie : db.columns.isEmpty = false := by
    cases h : db.columns with
    | nil => exact absurd h hne
    | cons a t => rfl
  have he : ensure_exists db (build k) = .error StructureError.mk := by
    unfold ensure_exists
    rw [hie, hso]
    simp
  exact ⟨by simp only [set_state, he, error_bind],
    by simp only [get_state, he, error_bind],
    by simp only [set_data, he, error_bind],
    by simp only [get_data, he, error_bind]⟩

theorem claim_schema_mismatch_raises_witness :
    set_state (DB.mk [("key", "text"), ("state", "text")] [])
        (StorageKey.mk 1 2) (StateArg.strArg "S") = .error StructureError.mk ∧
    get_state (DB.mk [("key", "text"), ("state", "text")] [])
        (StorageKey.mk 1 2) = .error StructureError.mk ∧
    set_data pyJsonCodec (DB.mk [("key", "text"), ("state", "text")] [])
        (StorageKey.mk 1 2) (.obj []) = .error StructureError.mk ∧
    get_data pyJsonCodec (DB.mk [("key", "text"), ("state", "text")] [])
        (StorageKey.mk 1 2) = .error StructureError.mk :=
  claim_schema_mismatch_raises pyJsonCodec _ _ _ _ (by decide)
    ⟨("data", "JSON"), by decide, by decide⟩

/-- C8: with no stored user record and a falsy `entry()` result, `registr`
raises `RegistrationError`; with a stored record whose `first_name` and
`last_name` are identical (`is`) to the incoming ones and whose `username` is
not, exactly one `update_username` call is issued and no other update call. -/
theorem claim_registr_behaviour (e : EventFromUser) (u : UserRecord) (b : Bool)
    (hf : u.first_name = e.first_name) (hl : u.last_name = e.last_name)
    (hu : u.username ≠ e.username) :
    registr e none false = .error RegistrationError.mk ∧
    registr e (some u) b = .ok [RepoCall.update_username e.id e.username] := by
  refine ⟨rfl, ?_⟩
  have hf' : ¬(u.first_name ≠ e.first_name) := not_not_intro hf
  have hl' : ¬(u.last_name ≠ e.last_name) := not_not_intro hl
  show Except.ok
      (((if u.first_name ≠ e.first_name then
          [RepoCall.update_first_name e.id e.first_name] else []) ++
        if u.last_name ≠ e.last_name then
          [RepoCall.update_last_name e.id e.last_name] else []) ++
        if u.username ≠ e.username then
          [RepoCall.update_username e.id e.username] else []) = _
  rw [if_neg hf', if_neg hl', if_pos hu]
  rfl

theorem claim_registr_behaviour_witness :
    registr (EventFromUser.mk 9 1 2 3) none false =
      .error RegistrationError.mk ∧
    registr (EventFromUser.mk 9 1 2 3) (some (UserRecord.mk 1 2 7)) true =
      .ok [RepoCall.update_username 9 3] :=
  claim_registr_behaviour (EventFromUser.mk 9 1 2 3) (UserRecord.mk 1 2 7)
    true rfl rfl (by decide)

/-- C9: `close()` on a store whose connection handle is still `None` (its
`__init__` value) raises `AttributeError` because `close` dereferences the
handle without a `None` guard; after `get_connection` establishes a handle,
`close()` succeeds. -/
theorem claim_close_requires_connection (s : PGStorage) (b : Bool) :
    closeStorage initStorage = .error PyAttributeError.mk ∧
    closeStorage (get_connection s b) = .ok () := by
  refine ⟨rfl, ?_⟩
  rcases s with ⟨conn⟩
  cases conn with
  | none => rfl
  | some u => cases b <;> rfl

/-- C10: the schema check only inspects the three expected columns, so a
pre-existing `memory_cache` table with the expected columns plus any
additional (differently named) columns passes, and every accessor proceeds
without `StructureError`. -/
theorem claim_extra_columns_accepted {α : Type} (c : JsonCodec α)
    (extras : List (String × String)) (rows : List (String × Row))
    (k : StorageKey) (st : StateArg) (d : α)
    (hx : ∀ p ∈ extras, ∀ m ∈ memory_cache_model, p.1 ≠ m.1) :
    schemaOk (created_columns ++ extras) = true ∧
    (set_state (DB.mk (created_columns ++ extras) rows) k st).isOk = true ∧
    (get_state (DB.mk (created_columns ++ extras) rows) k).isOk = true ∧
    (set_data c (DB.mk (created_columns ++ extras) rows) k d).isOk = true ∧
    (get_data c (DB.mk (created_columns ++ extras) rows) k).isOk = true := by
  have hso := schemaOk_extras extras hx
  obtain ⟨db₁, he, _, _, _⟩ :=
    ensure_exists_spec (DB.mk (created_columns ++ extras) rows) (build k)
      (Or.inr hso)
  refine ⟨hso, ?_, ?_, ?_, ?_⟩
  · simp only [set_state, he, ok_bind]
    rfl
  · simp only [get_state, he, ok_bind]
    rfl
  · simp only [set_data, he, ok_bind]
    rfl
  · simp only [get_data, he, ok_bind]
    split <;> rfl

theorem claim_extra_columns_accepted_witness :
    schemaOk (created_columns ++ [("extra", "integer")]) = true ∧
    (set_state (DB.mk (created_columns ++ [("extra", "integer")]) [])
      (StorageKey.mk 1 2) (StateArg.strArg "S")).isOk = true ∧
    (get_state (DB.mk (created_columns ++ [("extra", "integer")]) [])
      (StorageKey.mk 1 2)).isOk = true ∧
    (set_data pyJsonCodec
      (DB.mk (created_columns ++ [("extra", "integer")]) [])
      (StorageKey.mk 1 2) (.obj [])).isOk = true ∧
    (get_data pyJsonCodec
      (DB.mk (created_columns ++ [("extra", "integer")]) [])
      (StorageKey.mk 1 2)).isOk = true :=
  claim_extra_columns_accepted pyJsonCodec [("extra", "integer")] []
    (StorageKey.mk 1 2) (StateArg.strArg "S") (.obj []) (by decide)

/-- C1: on a compatible database, `set_state(k, "S")` followed by
`get_state(k)` returns `"S"` for every non-empty state label `S`. -/
theorem claim_set_state_get_state_roundtrip (db : DB) (k : StorageKey)
    (S : String) (hS : S ≠ "") (hc : compatible db) :
    ∃ db', set_state db k (StateArg.strArg S) = .ok db' ∧
      get_state db' k = .ok (some S, db') := by
  obtain ⟨db₁, he, hso₁, hany₁, _⟩ := ensure_exists_spec db (build k) hc
  refine ⟨upsertState db₁ (build k) (some S), ?_, ?_⟩
  · simp only [set_state, he, ok_bind]
    rfl
  · have hup : upsertState db₁ (build k) (some S) =
        { db₁ with rows :=
            db₁.rows.map (updateRow (build k) fun row =>
              Row.mk (some S) row.data) } := by
      unfold upsertState
      rw [if_pos hany₁]
    have hso' : schemaOk (upsertState db₁ (build k) (some S)).columns = true := by
      rw [hup]
      exact hso₁
    have hany' : ((upsertState db₁ (build k) (some S)).rows.any fun r =>
        r.1 == build k) = true := by
      rw [hup]
      exact (any_update _ _ _).trans hany₁
    have hes : ensure_exists (upsertState db₁ (build k) (some S)) (build k) =
        .ok (upsertState db₁ (build k) (some S)) :=
      ensure_exists_stable _ _ hso' hany'
    obtain ⟨p, hp⟩ : ∃ p, (db₁.rows.find? fun r => r.1 == build k) = some p :=
      Option.isSome_iff_exists.mp
        (List.find?_isSome.mpr (List.any_eq_true.mp hany₁))
    have hrow : rowFor (upsertState db₁ (build k) (some S)) (build k) =
        some (Row.mk (some S) p.2.data) := by
      unfold rowFor
      rw [hup]
      show (((db₁.rows.map
        (updateRow (build k) fun row => Row.mk (some S) row.data)).find?
          fun r => r.1 == build k).map fun r => r.2) = _
      rw [find?_update, hp]
      rfl
    have hSe : S.isEmpty = false := by
      rw [Bool.eq_false_iff]
      intro hb
      exact hS ((String.isEmpty_iff S).mp hb)
    simp only [get_state, hes, ok_bind, hrow, pyTruthy, hSe]
    rfl

theorem claim_set_state_get_state_roundtrip_witness :
    ∃ db', set_state (DB.mk [] []) (StorageKey.mk 7 9)
        (StateArg.strArg "S") = .ok db' ∧
      get_state db' (StorageKey.mk 7 9) = .ok (some "S", db') :=
  claim_set_state_get_state_roundtrip (DB.mk [] []) (StorageKey.mk 7 9) "S"
    (by decide) (Or.inl rfl)

/-- C2: on a compatible database, `set_data` stores `json_dumps(data)` and
`get_data` returns `json_loads` of the stored cell, so whenever the configured
codec round-trips the mapping (as the default `json.dumps`/`json.loads` do),
`set_data(k, d)` followed by `get_data(k)` returns `d`. -/
theorem claim_set_data_get_data_roundtrip {α : Type} (c : JsonCodec α)
    (db : DB) (k : StorageKey) (d : α)
    (hrt : c.loads (c.dumps d) = d) (hne : c.dumps d ≠ "")
    (hc : compatible db) :
    ∃ db', set_data c db k d = .ok db' ∧
      get_data c db' k = .ok (d, db') := by
  obtain ⟨db₁, he, hso₁, hany₁, _⟩ := ensure_exists_spec db (build k) hc
  refine ⟨upsertData db₁ (build k) (c.dumps d), ?_, ?_⟩
  · simp only [set_data, he, ok_bind]
    rfl
  · have hup : upsertData db₁ (build k) (c.dumps d) =
        { db₁ with rows :=
            db₁.rows.map (updateRow (build k) fun row =>
              Row.mk row.state (some (c.dumps d))) } := by
      unfold upsertData
      rw [if_pos hany₁]
    have hso' : schemaOk (upsertData db₁ (build k) (c.dumps d)).columns =
        true := by
      rw [hup]
      exact hso₁
    have hany' : ((upsertData db₁ (build k) (c.dumps d)).rows.any fun r =>
        r.1 == build k) = true := by
      rw [hup]
      exact (any_update _ _ _).trans hany₁
    have hes : ensure_exists (upsertData db₁ (build k) (c.dumps d)) (build k) =
        .ok (upsertData db₁ (build k) (c.dumps d)) :=
      ensure_exists_stable _ _ hso' hany'
    obtain ⟨p, hp⟩ : ∃ p, (db₁.rows.find? fun r => r.1 == build k) = some p :=
      Option.isSome_iff_exists.mp
        (List.find?_isSome.mpr (List.any_eq_true.mp hany₁))
    have hrow : rowFor (upsertData db₁ (build k) (c.dumps d)) (build k) =
        some (Row.mk p.2.state (some (c.dumps d))) := by
      unfold rowFor
      rw [hup]
      show (((db₁.rows.map
        (updateRow (build k) fun row =>
          Row.mk row.state (some (c.dumps d)))).find?
            fun r => r.1 == build k).map fun r => r.2) = _
      rw [find?_update, hp]
      rfl
    have hde : (c.dumps d).isEmpty = false := by
      rw [Bool.eq_false_iff]
      intro hb
      exact hne ((String.isEmpty_iff _).mp hb)
    simp only [get_data, hes, ok_bind, hrow, pyTruthy, hde]
    simp only [Bool.not_false, if_true, Option.getD_some, hrt]
    rfl

theorem claim_set_data_get_data_roundtrip_witness :
    pyLoads (pyDumps (.obj [("a", .num 1)])) = JsonVal.obj [("a", .num 1)] ∧
    ∃ db', set_data pyJsonCodec (DB.mk [] []) (StorageKey.mk 7 9)
        (.obj [("a", .num 1)]) = .ok db' ∧
      get_data pyJsonCodec db' (StorageKey.mk 7 9) =
        .ok (JsonVal.obj [("a", .num 1)], db') :=
  ⟨rfl, claim_set_data_get_data_roundtrip pyJsonCodec (DB.mk [] [])
    (StorageKey.mk 7 9) (.obj [("a", .num 1)]) rfl (by decide) (Or.inl rfl)⟩

/-- C3: on a compatible database with no row for the key, `get_state` returns
`None`, `get_data` returns the empty mapping (the default codec parses the
stored `\x7b\x7d` cell to the empty object), and either accessor leaves the
default row (empty-string state, empty-object data) for the key behind. -/
theorem claim_never_seen_key_defaults {α : Type} (c : JsonCodec α) (db : DB)
    (k : StorageKey) (hc : compatible db)
    (hns : (db.rows.any fun r => r.1 == build k) = false)
    (hl : c.loads "\x7b\x7d" = c.emptyObj) :
    ∃ db', get_state db k = .ok (none, db') ∧
      rowFor db' (build k) = some defaultRow ∧
      get_data c db k = .ok (c.emptyObj, db') := by
  obtain ⟨db₁, he, hso₁, hany₁, hrows⟩ := ensure_exists_spec db (build k) hc
  rw [hns] at hrows
  simp only [Bool.false_eq_true, if_false] at hrows
  have hfind : (db₁.rows.find? fun r => r.1 == build k) =
      some (build k, defaultRow) := by
    rw [hrows]
    exact find?_append_default _ _ _ hns
  have hrow : rowFor db₁ (build k) = some defaultRow := by
    unfold rowFor
    rw [hfind]
    rfl
  refine ⟨db₁, ?_, hrow, ?_⟩
  · simp only [get_state, he, ok_bind, hrow]
    rfl
  · simp only [get_data, he, ok_bind, hrow]
    show (if pyTruthy defaultRow.data then _ else _) = _
    rw [if_pos (by decide)]
    show Except.ok (c.loads "\x7b\x7d", db₁) = _
    rw [hl]

theorem claim_never_seen_key_defaults_witness :
    ∃ db', get_state (DB.mk [] []) (StorageKey.mk 7 9) = .ok (none, db') ∧
      rowFor db' (build (StorageKey.mk 7 9)) = some defaultRow ∧
      get_data pyJsonCodec (DB.mk [] []) (StorageKey.mk 7 9) =
        .ok (JsonVal.obj [], db') :=
  claim_never_seen_key_defaults pyJsonCodec (DB.mk [] []) (StorageKey.mk 7 9)
    (Or.inl rfl) rfl rfl

/-- C6: on a compatible database whose rows have unique keys (the `key`
column's primary-key invariant), `ensure_exists` succeeds, a second call
returns the same database unchanged and raises no error, and exactly one row
for the key exists afterwards. -/
theorem claim_ensure_exists_idempotent (db : DB) (k : String)
    (hc : compatible db) (hnd : (db.rows.map Prod.fst).Nodup) :
    ∃ db', ensure_exists db k = .ok db' ∧ ensure_exists db' k = .ok db' ∧
      (db'.rows.countP fun r => r.1 == k) = 1 := by
  obtain ⟨db₁, he, hso₁, hany₁, hrows⟩ := ensure_exists_spec db k hc
  refine ⟨db₁, he, ensure_exists_stable db₁ k hso₁ hany₁, ?_⟩
  rw [hrows]
  by_cases hA : (db.rows.any fun r => r.1 == k) = true
  · rw [if_pos hA]
    exact countP_key_eq_one _ _ hnd hA
  · have hA' : (db.rows.any fun r => r.1 == k) = false :=
      Bool.eq_false_iff.mpr hA
    rw [if_neg hA, List.countP_append, countP_key_zero _ _ hA']
    simp [List.countP_cons]

theorem claim_ensure_exists_idempotent_witness :
    ∃ db', ensure_exists (DB.mk [] []) "/7/9/" = .ok db' ∧
      ensure_exists db' "/7/9/" = .ok db' ∧
      (db'.rows.countP fun r => r.1 == "/7/9/") = 1 :=
  claim_ensure_exists_idempotent (DB.mk [] []) "/7/9/" (Or.inl rfl)
    (by decide)

/-- C7: `set_data` never touches the `state` column: on a compatible database,
a pre-existing row keeps its state value (only `data` changes), and a row
created by this very call gets the empty-string state. -/
theorem claim_set_data_preserves_state {α : Type} (c : JsonCodec α) (db : DB)
    (k : StorageKey) (d : α) (hc : compatible db) :
    ∃ db', set_data c db k d = .ok db' ∧
      (∀ r, rowFor db (build k) = some r →
        rowFor db' (build k) =
          some { state := r.state, data := some (c.dumps d) }) ∧
      (rowFor db (build k) = none →
        rowFor db' (build k) =
          some { state := some "", data := some (c.dumps d) }) := by
  obtain ⟨db₁, he, hso₁, hany₁, hrows⟩ := ensure_exists_spec db (build k) hc
  have hup : upsertData db₁ (build k) (c.dumps d) =
      { db₁ with rows :=
          db₁.rows.map (updateRow (build k) fun row =>
            Row.mk row.state (some (c.dumps d))) } := by
    unfold upsertData
    rw [if_pos hany₁]
  refine ⟨upsertData db₁ (build k) (c.dumps d), ?_, ?_, ?_⟩
  · simp only [set_data, he, ok_bind]
    rfl
  · intro r hr
    obtain ⟨p, hp, hpr⟩ := Option.map_eq_some'.mp hr
    have hpp : (p.1 == build k) = true :=
      @List.find?_some _ (fun r => r.1 == build k) p db.rows hp
    have hA : (db.rows.any fun rr => rr.1 == build k) = true :=
      List.any_eq_true.mpr ⟨p, List.mem_of_find?_eq_some hp, hpp⟩
    have hrows1 : db₁.rows = db.rows := by
      rw [hrows, if_pos hA]
    unfold rowFor
    rw [hup]
    show (((db₁.rows.map
      (updateRow (build k) fun row =>
        Row.mk row.state (some (c.dumps d)))).find?
          fun rr => rr.1 == build k).map fun rr => rr.2) = _
    rw [find?_update, hrows1, hp]
    subst hpr
    rfl
  · intro hr
    have hfn : (db.rows.find? fun rr => rr.1 == build k) = none :=
      Option.map_eq_none'.mp hr
    have hA : (db.rows.any fun rr => rr.1 == build k) = false := by
      rw [List.any_eq_false]
      exact List.find?_eq_none.mp hfn
    have hrows1 : db₁.rows = db.rows ++ [(build k, defaultRow)] := by
      rw [hrows, hA]
      simp
    unfold rowFor
    rw [hup]
    show (((db₁.rows.map
      (updateRow (build k) fun row =>
        Row.mk row.state (some (c.dumps d)))).find?
          fun rr => rr.1 == build k).map fun rr => rr.2) = _
    rw [find?_update, hrows1, find?_append_default _ _ _ hA]
    rfl

theorem claim_set_data_preserves_state_witness :
    ∃ db', set_data pyJsonCodec
        (DB.mk created_columns
          [("/7/9/", { state := some "S", data := some "\x7b\x7d" })])
        (StorageKey.mk 7 9) (.obj [("a", .num 1)]) = .ok db' ∧
      (∀ r, rowFor (DB.mk created_columns
          [("/7/9/", { state := some "S", data := some "\x7b\x7d" })])
          (build (StorageKey.mk 7 9)) = some r →
        rowFor db' (build (StorageKey.mk 7 9)) =
          some { state := r.state,
                 data := some (pyJsonCodec.dumps (.obj [("a", .num 1)])) }) ∧
      (rowFor (DB.mk created_columns
          [("/7/9/", { state := some "S", data := some "\x7b\x7d" })])
          (build (StorageKey.mk 7 9)) = none →
        rowFor db' (build (StorageKey.mk 7 9)) =
          some { state := some "",
                 data := some (pyJsonCodec.dumps (.obj [("a", .num 1)])) }) :=
  claim_set_data_preserves_state pyJsonCodec
    (DB.mk created_columns
      [("/7/9/", { state := some "S", data := some "\x7b\x7d" })])
    (StorageKey.mk 7 9) (.obj [("a", .num 1)]) (Or.inr (by decide))
